import Mathlib

/-!
Verification of the upbit-auto trading core against its specification.

Shallow embedding of the relevant source functions:
* `src/ua/data/aggregator.py`   — tick→bar aggregation (`CandleAggregator`)
* `src/ua/engine/common.py`     — `simulate_long_only`, the execution/accounting model
* `src/ua/broker/upbit.py`      — `UpbitBroker._request` retry loop, `_raise_http_error`
                                  classification, `quantize_price`
* `src/ua/live/portfolio_ws.py` — `run_portfolio_ws` per-message loop, `_parse_trade`

Python floats are modelled as rationals (`ℚ`); the claims under study do not
hinge on binary rounding.  Timestamps are modelled as integer milliseconds.
External collaborators (strategy signal function, ATR indicator, broker HTTP
responses, account balances) are modelled as explicit oracle inputs, so every
definition is a pure computable function of its arguments.
-/

namespace UA

/-! ## Bar aggregator (src/ua/data/aggregator.py) -/

/-- `floor_minute`: `datetime.replace(second=0, microsecond=0)` on a
millisecond timestamp, i.e. floor to a multiple of 60000 ms. -/
def floorMinuteMs (ts : Int) : Int := ts - ts % 60000

/-- `CandleBucket` dataclass: the open (mutable) bucket of the aggregator.
The Python field `open` is a Lean keyword, rendered `open_`. -/
structure CandleBucket where
  start : Int
  open_ : ℚ
  high : ℚ
  low : ℚ
  close : ℚ
  volume : ℚ
deriving DecidableEq, Repr

/-- One finalized OHLCV row (the single-row DataFrame returned by
`CandleAggregator.update` / `finalize`). -/
structure BarRow where
  timestamp : Int
  Open : ℚ
  High : ℚ
  Low : ℚ
  Close : ℚ
  Volume : ℚ
deriving DecidableEq, Repr

/-- `CandleAggregator.update(ts, price, volume)`: returns the finalized bar
(if any) and the new bucket.  The aggregator's only state is its bucket. -/
def aggUpdate (bucket : Option CandleBucket) (ts : Int) (price volume : ℚ) :
    Option BarRow × Option CandleBucket :=
  let key := floorMinuteMs ts
  match bucket with
  | none => (none, some ⟨key, price, price, price, price, volume⟩)
  | some b =>
    if b.start < key then
      -- new minute → finalize previous, start new bucket
      (some ⟨b.start, b.open_, b.high, b.low, b.close, b.volume⟩,
       some ⟨key, price, price, price, price, volume⟩)
    else
      -- same minute (the code takes this branch for any `key ≤ start`)
      (none, some ⟨b.start, b.open_, max b.high price, min b.low price, price, b.volume + volume⟩)

/-- `CandleAggregator.finalize()`: force-emit the in-progress bucket. -/
def aggFinalize (bucket : Option CandleBucket) : Option BarRow × Option CandleBucket :=
  match bucket with
  | none => (none, none)
  | some b => (some ⟨b.start, b.open_, b.high, b.low, b.close, b.volume⟩, none)

/-- Run the aggregator over a list of ticks `(ts_ms, price, volume)`,
collecting the finalized bars in order. -/
def aggRun (bucket : Option CandleBucket) : List (Int × ℚ × ℚ) → List BarRow × Option CandleBucket
  | [] => ([], bucket)
  | (ts, p, v) :: rest =>
    let (bar?, b') := aggUpdate bucket ts p v
    let (bars, bf) := aggRun b' rest
    (bar?.toList ++ bars, bf)

/-! ## Price quantization (src/ua/broker/upbit.py `UpbitBroker.quantize_price`) -/

/-- Python `int(q)`: truncation toward zero of a rational. -/
def ratTrunc (q : ℚ) : Int := q.num.tdiv (q.den : Int)

/-- `UpbitBroker.quantize_price(price, price_unit)`:
`if not price_unit or price_unit <= 0: return price` (None and 0.0 are falsy),
`return int(price / price_unit) * price_unit`. -/
def quantize_price (price : ℚ) (price_unit : Option ℚ) : ℚ :=
  match price_unit with
  | none => price
  | some u => if u ≤ 0 then price else (ratTrunc (price / u) : ℚ) * u

/-! ## Execution/accounting model (src/ua/engine/common.py `simulate_long_only`) -/

/-- Mutable locals of the `simulate_long_only` bar loop. -/
structure SimState where
  equityCurve : List ℚ
  position : ℚ
  entryPrice : ℚ
  trades : List ℚ
  wins : Nat
  cashBal : ℚ
  lastTradeBar : Int
deriving DecidableEq, Repr

/-- Initial locals: `position = 0.0`, `cash_bal = cash`, `last_trade_bar = -10**9`. -/
def simInit (cash : ℚ) : SimState := ⟨[], 0, 0, [], 0, cash, -(10 ^ 9)⟩

/-- The trading part of one loop iteration (after mark-to-market and the
drawdown check): the `sig == 1` buy branch and the `sig == -1` sell branch. -/
def simTrade (fee slippage maxFraction : ℚ) (cooldownBars : Int) (i : Nat) (price : ℚ)
    (sig : Int) (s : SimState) : SimState :=
  if sig = 1 ∧ s.position = 0 ∧ cooldownBars ≤ (i : Int) - s.lastTradeBar then
    -- `buy_price = price * (1 + slippage)`; `continue` when it is ≤ 0;
    -- `budget = cash_bal * max_fraction`; `qty = budget / buy_price`
    if price * (1 + slippage) ≤ 0 then s
    else if 0 < s.cashBal * maxFraction / (price * (1 + slippage)) then
      let buyPrice := price * (1 + slippage)
      let qty := s.cashBal * maxFraction / buyPrice
      let notional := qty * buyPrice
      let feeAmt := notional * fee
      { s with position := qty, cashBal := s.cashBal - notional - feeAmt,
               entryPrice := buyPrice, lastTradeBar := (i : Int) }
    else s
  else if sig = -1 ∧ 0 < s.position ∧ cooldownBars ≤ (i : Int) - s.lastTradeBar then
    let sellPrice := price * (1 - slippage)
    let notional := s.position * sellPrice
    let feeAmt := notional * fee
    let proceeds := notional - feeAmt
    let tradeRet := (sellPrice - s.entryPrice) / s.entryPrice * 100 - (fee * 100 + fee * 100)
    { s with trades := s.trades ++ [tradeRet],
             wins := s.wins + (if 0 < tradeRet then 1 else 0),
             cashBal := s.cashBal + proceeds,
             position := 0, entryPrice := 0, lastTradeBar := (i : Int) }
  else s

/-- The drawdown-stop test of the loop:
`stop_drawdown is not None and cash > 0 and (eq - cash)/cash <= -stop_drawdown`. -/
def riskBreachB (cash : ℚ) (stopDrawdown : Option ℚ) (eq : ℚ) : Bool :=
  match stopDrawdown with
  | none => false
  | some sd => decide (0 < cash) && decide ((eq - cash) / cash ≤ -sd)

/-- Output of the per-bar loop, with ghost instrumentation: `haltBar` is the
loop index at which the drawdown stop fired `break`, `loopBars` counts loop
iterations entered (bars processed by the per-bar loop). -/
structure SimLoopOut where
  state : SimState
  stoppedReason : Option String
  haltBar : Option Nat
  loopBars : Nat
deriving DecidableEq, Repr

/-- The `for i, price in enumerate(close)` loop of `simulate_long_only`:
mark-to-market append, drawdown stop (`break`), then the trade branches. -/
def simLoop (cash fee slippage maxFraction : ℚ) (cooldownBars : Int) (stopDrawdown : Option ℚ) :
    Nat → SimState → List (ℚ × Int) → SimLoopOut
  | i, s, [] => ⟨s, none, none, i⟩
  | i, s, (price, sig) :: rest =>
    let eq := s.cashBal + s.position * price
    let s1 := { s with equityCurve := s.equityCurve ++ [eq] }
    if riskBreachB cash stopDrawdown eq then
      ⟨s1, some "risk_violation", some i, i + 1⟩
    else
      simLoop cash fee slippage maxFraction cooldownBars stopDrawdown (i + 1)
        (simTrade fee slippage maxFraction cooldownBars i price sig s1) rest

/-- Minimum of a list (`pandas .min()` over a nonempty series; 0 for empty). -/
def listMin : List ℚ → ℚ
  | [] => 0
  | x :: xs => xs.foldl min x

/-- Sum of a list of rationals. -/
def listSum (l : List ℚ) : ℚ := l.foldl (· + ·) 0

/-- Running maxima (`equity.cummax()`), seeded with accumulator `m`. -/
def cummaxGo (m : ℚ) : List ℚ → List ℚ
  | [] => []
  | x :: xs => let m' := max m x; m' :: cummaxGo m' xs

/-- `_max_drawdown`: `((equity - cummax)/cummax).min() * 100`, 0 if empty. -/
def maxDrawdownPct (eqc : List ℚ) : ℚ :=
  match eqc with
  | [] => 0
  | x :: xs =>
    let peaks := x :: cummaxGo x xs
    let dds := List.zipWith (fun e p => (e - p) / p) (x :: xs) peaks
    listMin dds * 100

/-- `equity.pct_change().dropna()`: consecutive percentage changes. -/
def pctChanges : List ℚ → List ℚ
  | [] => []
  | [_] => []
  | x :: y :: xs => ((y - x) / x) :: pctChanges (y :: xs)

/-- The metrics dict of `simulate_long_only`.  The Sharpe ratio
`sqrt(252) * r.mean() / (r.std() + 1e-12)` is an irrational-valued but fixed
deterministic function of the per-bar return series `r`; that series is
recorded here as `sharpeRets`, so the float Sharpe is determined by this
record. -/
structure Metrics where
  equityFinal : ℚ
  retPct : ℚ
  mddPct : ℚ
  winRatePct : ℚ
  numTrades : Nat
  avgTradePct : ℚ
  sharpeRets : List ℚ
  stoppedReason : String
deriving DecidableEq, Repr

/-- `SimResult` plus the loop's ghost instrumentation (`haltBar`, `loopBars`). -/
structure SimResult where
  metrics : Metrics
  equityCurve : List ℚ
  haltBar : Option Nat
  loopBars : Nat
deriving DecidableEq, Repr

/-- `simulate_long_only(df, signals, cash, fee, slippage, max_fraction,
cooldown_bars, stop_drawdown)` over a close-price list and an aligned signal
list (the Python builds `pd.Series(signals, index=close.index)`, requiring
equal lengths; the model pairs them with `zip`). -/
def simulate_long_only (closes : List ℚ) (signals : List Int) (cash fee slippage : ℚ)
    (maxFraction : ℚ) (cooldownBars : Int) (stopDrawdown : Option ℚ) : SimResult :=
  let out := simLoop cash fee slippage maxFraction cooldownBars stopDrawdown 0 (simInit cash)
    (closes.zip signals)
  let s := out.state
  -- close any open position at last price
  let s2 :=
    if 0 < s.position ∧ closes ≠ [] then
      let price := (closes.getLast?).getD 0
      let sellPrice := price * (1 - slippage)
      let notional := s.position * sellPrice
      let feeAmt := notional * fee
      let proceeds := notional - feeAmt
      let tradeRet := (sellPrice - s.entryPrice) / s.entryPrice * 100 - (fee * 100 + fee * 100)
      { s with trades := s.trades ++ [tradeRet],
               wins := s.wins + (if 0 < tradeRet then 1 else 0),
               cashBal := s.cashBal + proceeds, position := 0, entryPrice := 0,
               equityCurve := s.equityCurve ++ [s.cashBal + proceeds] }
    else s
  let equity := s2.equityCurve
  let equityFinal := (equity.getLast?).getD cash
  let retPct := if 0 < cash then (equityFinal - cash) / cash * 100 else 0
  let numTrades := s2.trades.length
  let winRate := if 0 < numTrades then (s2.wins : ℚ) / (numTrades : ℚ) * 100 else 0
  let avgTrade := if s2.trades = [] then 0 else listSum s2.trades / (numTrades : ℚ)
  ⟨⟨equityFinal, retPct, maxDrawdownPct equity, winRate, numTrades, avgTrade,
    pctChanges equity, out.stoppedReason.getD "completed"⟩,
   equity, out.haltBar, out.loopBars⟩

/-! ## Exchange protocol client (src/ua/broker/upbit.py) -/

/-- What one HTTP attempt can produce, as seen by `_request`'s
`try/except`: a successful response, an `httpx.HTTPStatusError` with a status
code and optional parsed `Retry-After` header, or an `httpx.RequestError`
(transport failure). -/
inductive HttpOutcome where
  | success
  | httpStatus (status : Nat) (retryAfter : Option ℚ)
  | transportError
deriving DecidableEq, Repr

/-- The error taxonomy of `ua/broker/errors.py` as raised by
`_raise_http_error`. -/
inductive UpbitError where
  | authentication
  | permission
  | notFound
  | rateLimit
  | invalidRequest
  | exchange
deriving DecidableEq, Repr

/-- Result of `_request`: a returned response (with the attempt number it
succeeded on, ghost), a classified raised error, or the final
`RateLimitError("… exceeded retry limit")` after exhausting all attempts. -/
inductive ReqResult where
  | ok (attempt : Nat)
  | raised (e : UpbitError)
  | retryExhausted
deriving DecidableEq, Repr

/-- `_raise_http_error` status classification. -/
def classify_http_error (status : Nat) : UpbitError :=
  if status = 401 then .authentication
  else if status = 403 then .permission
  else if status = 404 then .notFound
  else if status = 429 then .rateLimit
  else if 400 ≤ status ∧ status < 500 then .invalidRequest
  else .exchange

/-- `status in (429, 500, 502, 503, 504)`. -/
def retryableStatus (s : Nat) : Bool :=
  decide (s = 429) || decide (s = 500) || decide (s = 502) || decide (s = 503) || decide (s = 504)

/-- `backoff = min(backoff * 2.0, 8.0)`. -/
def nextBackoff (b : ℚ) : ℚ := min (b * 2) 8

/-- The sleep before a retryable-status retry:
`wait = max(backoff, retry_after); wait = wait * (1.0 + 0.2 * random.random())`.
`jitterVal` is the `random.random()` draw (in `[0,1)`). -/
def retryWait (backoff raFloor jitterVal : ℚ) : ℚ :=
  max backoff raFloor * (1 + (1 / 5) * jitterVal)

/-- The `for attempt in range(max_retries)` loop of `_request`.  `outcome k`
is what attempt `k` produces; `jitter k` is that attempt's `random.random()`
draw.  Returns the result and the list of sleep durations. -/
def requestLoop (outcome : Nat → HttpOutcome) (jitter : Nat → ℚ) :
    Nat → Nat → ℚ → ReqResult × List ℚ
  | 0, _, _ => (.retryExhausted, [])
  | fuel + 1, attempt, backoff =>
    match outcome attempt with
    | .success => (.ok attempt, [])
    | .httpStatus status ra =>
      if retryableStatus status then
        let wait := retryWait backoff (ra.getD 0) (jitter attempt)
        let r := requestLoop outcome jitter fuel (attempt + 1) (nextBackoff backoff)
        (r.1, wait :: r.2)
      else (.raised (classify_http_error status), [])
    | .transportError =>
      let r := requestLoop outcome jitter fuel (attempt + 1) (nextBackoff backoff)
      (r.1, backoff :: r.2)

/-- `_request` with its defaults: `max_retries = 5`, initial `backoff = 0.5`. -/
def upbit_request (outcome : Nat → HttpOutcome) (jitter : Nat → ℚ) : ReqResult × List ℚ :=
  requestLoop outcome jitter 5 0 (1 / 2)

/-- An outcome the `_request` loop retries: a transport error, or an HTTP
status in the retry set. -/
def retryableOutcome : HttpOutcome → Prop
  | .success => False
  | .httpStatus s _ => retryableStatus s = true
  | .transportError => True

/-! ## Live portfolio loop (src/ua/live/portfolio_ws.py `run_portfolio_ws`) -/

/-- An inbound stream frame after JSON decoding, with each field already
interpreted: `code` is `str(msg.get("code"))` (always a string — a missing
key stringifies to "None"); `tradePrice`/`tsMs` are `none` when the field is
missing or non-numeric (then `float(...)`/`int(...)` raises);
`tradeVolume = none` means the key is absent (defaulted to `0.0`), and
`volMalformed` marks a present but non-numeric `trade_volume`. -/
structure RawMsg where
  code : String
  tradePrice : Option ℚ
  tradeVolume : Option ℚ
  volMalformed : Bool
  tsMs : Option Int
deriving DecidableEq, Repr

/-- `_parse_trade(msg)`: `(market, ts, price, volume)` or `None` on any
parse failure. -/
def parse_trade (m : RawMsg) : Option (String × Int × ℚ × ℚ) :=
  match m.tradePrice with
  | none => none
  | some p =>
    if m.volMalformed then none
    else
      match m.tsMs with
      | none => none
      | some ts => some (m.code, ts, p, m.tradeVolume.getD 0)

/-- `MarketState` of `run_portfolio_ws` (one per market).  Python's
`partial_done` is rendered `tpDone` ("take-profit done"): the original name
contains a Lean keyword. -/
structure PMState where
  market : String
  bucket : Option CandleBucket
  df : List BarRow
  bars : Int
  lastTradeBar : Int
  lastSignal : Int
  coinQty : ℚ
  entryPrice : ℚ
  trailStop : Option ℚ
  tpDone : Bool
  priceUnit : Option ℚ
  minTotal : Option ℚ
deriving DecidableEq, Repr

/-- Per-bar oracle inputs: the strategy signal on the updated window
(`strat.signals(df).iat[-1]`), the last ATR value (`none` for NaN), the
trading-hours gate `_in_windows(...)`, and the broker outcomes of the three
possible order blocks.  An outcome `none` means the block's
`place_order`/`get_accounts` raised; `some (krw?, coin?)` means it succeeded
and the balance refresh found (or not) the KRW / coin entries. -/
structure BarEnv where
  sigVal : Int
  atrVal : Option ℚ
  within : Bool
  exitOutcome : Option (Option ℚ × Option ℚ)
  tpOutcome : Option (Option ℚ × Option ℚ)
  entryOutcome : Option (Option ℚ × Option ℚ)
deriving DecidableEq, Repr

/-- Configuration of `run_portfolio_ws` relevant to the per-bar pipeline.
Python `partial_tp_pct` / `partial_tp_ratio` are rendered `tpPct` / `tpFrac`
(the original names contain a Lean keyword). -/
structure PCfg where
  maxFraction : ℚ
  maxDailyLoss : ℚ
  cooldownBars : Int
  atrTrailingMult : ℚ
  tpPct : ℚ
  tpFrac : ℚ
deriving DecidableEq, Repr

/-- An `OrderRequest` submitted to `broker.place_order`, with ghost field
`qtyAtIssue`: the market's `coin_qty` at the moment of submission. -/
structure OrderReq where
  side : String
  market : String
  price : Option ℚ
  size : Option ℚ
  ordType : String
  qtyAtIssue : ℚ
deriving DecidableEq, Repr

/-- `st.df["Close"].iat[-1]` with a fallback for an empty frame. -/
def lastClose (df : List BarRow) (fallback : ℚ) : ℚ :=
  match df.getLast? with
  | some r => r.Close
  | none => fallback

/-- The ATR trailing-stop update (lines 232–240): while in position and
trailing enabled, `st.trail_stop = max(st.trail_stop or 0.0, close − mult·ATR)`
(`x or 0.0` equals `Option.getD x 0`); otherwise unchanged. -/
def trailUpdate (atrMult coinQty : ℚ) (trailStop : Option ℚ) (atrVal : Option ℚ)
    (closePx : ℚ) : Option ℚ :=
  if 0 < coinQty ∧ 0 < atrMult then
    match atrVal with
    | some a => some (max (trailStop.getD 0) (closePx - atrMult * a))
    | none => trailStop
  else trailStop

/-- `st.trail_stop is not None and close_px <= st.trail_stop`. -/
def trailHit (trailStop : Option ℚ) (closePx : ℚ) : Bool :=
  match trailStop with
  | some t => decide (closePx ≤ t)
  | none => false

/-- The `do_exit` computation (lines 248–253). -/
def exitSignal (st : PMState) (sVal : Int) (closePx : ℚ) : Bool :=
  decide (0 < st.coinQty) && (trailHit st.trailStop closePx || decide (sVal = -1))

/-- The exit block (lines 254–267): market-sell the full quantity; on success
refresh balances from the exchange (KRW falls back to the old value, coin to
`0.0`), clear stop and take-profit flag, reset the cooldown anchor.  On an
exception nothing is mutated.  Either way the pipeline `continue`s. -/
def exitPhase (env : BarEnv) (krw : ℚ) (st : PMState) : ℚ × PMState × List OrderReq :=
  let order : OrderReq := ⟨"sell", st.market, none, some st.coinQty, "market", st.coinQty⟩
  match env.exitOutcome with
  | some (krwB, coinB) =>
    (krwB.getD krw,
     { st with coinQty := coinB.getD 0, entryPrice := 0, trailStop := none,
               tpDone := false, lastTradeBar := st.bars }, [order])
  | none => (krw, st, [order])

/-- The partial take-profit block (lines 269–282): once per position, if in
position, enabled, signal not sell, unrealized return ≥ threshold: sell
`coin_qty * ratio`; on success refresh balances (coin falls back to
`coin_qty - size`) and set the once-flag. -/
def tpPhase (cfg : PCfg) (env : BarEnv) (krw : ℚ) (st : PMState) (closePx : ℚ) :
    ℚ × PMState × List OrderReq :=
  if 0 < st.coinQty ∧ 0 < cfg.tpPct ∧ 0 ≤ env.sigVal then
    if 0 < st.entryPrice then
      if st.entryPrice * (1 + cfg.tpPct) ≠ 0 ∧ st.entryPrice * (1 + cfg.tpPct) ≤ closePx ∧
          st.tpDone = false then
        let size := st.coinQty * cfg.tpFrac
        let order : OrderReq := ⟨"sell", st.market, none, some size, "market", st.coinQty⟩
        match env.tpOutcome with
        | some (krwB, coinB) =>
          (krwB.getD krw,
           { st with coinQty := coinB.getD (st.coinQty - size), tpDone := true }, [order])
        | none => (krw, st, [order])
      else (krw, st, [])
    else (krw, st, [])
  else (krw, st, [])

/-- `st.min_total and budget < float(st.min_total)` (None and 0.0 are falsy). -/
def belowMinTotal (minTotal : Option ℚ) (budget : ℚ) : Bool :=
  match minTotal with
  | some m => decide (m ≠ 0) && decide (budget < m)
  | none => false

/-- `if st.price_unit: budget = UpbitBroker.quantize_price(budget, st.price_unit)`
(None and 0.0 are falsy). -/
def entryBudget (priceUnit : Option ℚ) (budget : ℚ) : ℚ :=
  match priceUnit with
  | some u => if u ≠ 0 then quantize_price budget (some u) else budget
  | none => budget

/-- The entry block (lines 284–304): if buy signal, *no position*
(`st.coin_qty == 0.0`), inside allowed hours, cooldown satisfied: compute the
notional budget, reject below `min_total`, quantize to the price unit, submit
a notional market buy; on success refresh balances (coin falls back to the
old quantity), set entry price to the close, clear stop and TP flag, reset
the cooldown anchor. -/
def entryPhase (cfg : PCfg) (env : BarEnv) (krw : ℚ) (st : PMState) (closePx : ℚ) :
    ℚ × PMState × List OrderReq :=
  if env.sigVal = 1 ∧ st.coinQty = 0 ∧ env.within = true ∧
      cfg.cooldownBars ≤ st.bars - st.lastTradeBar then
    if belowMinTotal st.minTotal (krw * cfg.maxFraction) then (krw, st, [])
    else
      let order : OrderReq :=
        ⟨"buy", st.market, some (entryBudget st.priceUnit (krw * cfg.maxFraction)), none,
         "price", st.coinQty⟩
      match env.entryOutcome with
      | some (krwB, coinB) =>
        (krwB.getD krw,
         { st with coinQty := coinB.getD st.coinQty, entryPrice := closePx, trailStop := none,
                   tpDone := false, lastTradeBar := st.bars }, [order])
      | none => (krw, st, [order])
  else (krw, st, [])

/-- The decision part of the finalized-bar pipeline (after window append and
trailing-stop update): exit first (an exit attempt `continue`s past the
rest), else partial take-profit then entry. -/
def barPipeline (cfg : PCfg) (env : BarEnv) (krw : ℚ) (st2 : PMState) (closePx : ℚ) :
    ℚ × PMState × List OrderReq :=
  if exitSignal st2 env.sigVal closePx then exitPhase env krw st2
  else
    let r1 := tpPhase cfg env krw st2 closePx
    let r2 := entryPhase cfg env r1.1 r1.2.1 closePx
    (r2.1, r2.2.1, r1.2.2 ++ r2.2.2)

/-- Window append with the 2000-bar rolling cap (lines 209–214). -/
def stepDf (st : PMState) (row : BarRow) : List BarRow :=
  let df1 := st.df ++ [row]
  if 2000 < df1.length then df1.drop (df1.length - 2000) else df1

/-- The finalized-bar pipeline (lines 207–304): append the bar to the rolling
window (capped at 2000), bump the bar counter, record the signal, update the
trailing stop, then exit / partial take-profit / entry in that order. -/
def barStep (cfg : PCfg) (env : BarEnv) (krw : ℚ) (st : PMState) (row : BarRow)
    (tickPrice : ℚ) : ℚ × PMState × List OrderReq :=
  let st1 := { st with df := stepDf st row, bars := st.bars + 1, lastSignal := env.sigVal }
  let closePx := lastClose st1.df tickPrice
  let st2 := { st1 with
    trailStop := trailUpdate cfg.atrTrailingMult st1.coinQty st1.trailStop env.atrVal closePx }
  barPipeline cfg env krw st2 closePx

/-- `states.get(mkt)` (markets are unique keys). -/
def findState (states : List PMState) (mkt : String) : Option PMState :=
  states.find? (fun s => s.market == mkt)

/-- Write back the mutated state of market `mkt`. -/
def replaceState : List PMState → String → PMState → List PMState
  | [], _, _ => []
  | s :: rest, mkt, st' =>
    if s.market == mkt then st' :: rest else s :: replaceState rest mkt st'

/-- The portfolio-equity approximation (lines 198–201): KRW plus, per market,
held quantity times the just-arrived tick's price for the market that ticked
and the last known close (0 with no bars) for the others. -/
def equityOf (krw : ℚ) (states : List PMState) (mkt : String) (price : ℚ) : ℚ :=
  krw + listSum (states.map fun s =>
    s.coinQty * (if s.market == mkt then price else lastClose s.df 0))

/-- Processing of one received frame (lines 186–304): parse (drop on
failure), route to the market's state (drop unknown markets), feed the
aggregator, approximate portfolio equity and *return* (`Sum.inr equity`) if
the max-daily-loss drawdown is breached, otherwise run the bar pipeline when
a bar was finalized. -/
def pStep (cfg : PCfg) (startEq : ℚ) (env : BarEnv) (krw : ℚ) (states : List PMState)
    (m : RawMsg) : (ℚ × List PMState × List OrderReq) ⊕ ℚ :=
  match parse_trade m with
  | none => .inl (krw, states, [])
  | some (mkt, ts, price, vol) =>
    match findState states mkt with
    | none => .inl (krw, states, [])
    | some st =>
      let r := aggUpdate st.bucket ts price vol
      let st1 := { st with bucket := r.2 }
      let equity := equityOf krw states mkt price
      if 0 < startEq ∧ 0 < cfg.maxDailyLoss ∧
          (equity - startEq) / startEq ≤ -cfg.maxDailyLoss then
        .inr equity
      else
        match r.1 with
        | some row =>
          let b := barStep cfg env krw st1 row price
          .inl (b.1, replaceState states mkt b.2.1, b.2.2)
        | none => .inl (krw, replaceState states mkt st1, [])

/-- Result of driving the message loop over a finite frame list, with ghost
instrumentation: all orders submitted, the number of frames consumed, and
`stoppedRisk = some equity` when the loop hit the risk `return`. -/
structure PRun where
  krw : ℚ
  states : List PMState
  orders : List OrderReq
  msgsProcessed : Nat
  stoppedRisk : Option ℚ
deriving DecidableEq, Repr

/-- The inner `while True` receive loop of `run_portfolio_ws`, driven over a
finite list of frames.  On the risk breach the Python `return`s
`{"stopped": "risk", "equity": equity}`: no later frame is processed. -/
def pLoop (cfg : PCfg) (startEq : ℚ) (env : Nat → BarEnv) :
    Nat → ℚ → List PMState → List OrderReq → List RawMsg → PRun
  | i, krw, states, orders, [] => ⟨krw, states, orders, i, none⟩
  | i, krw, states, orders, m :: rest =>
    match pStep cfg startEq (env i) krw states m with
    | .inr eq => ⟨krw, states, orders, i + 1, some eq⟩
    | .inl (k', s', os) => pLoop cfg startEq env (i + 1) k' s' (orders ++ os) rest

end UA

namespace UA

/-! ## Helper lemmas -/

theorem ratTrunc_eq_floor (q : ℚ) (h : 0 ≤ q) : ratTrunc q = ⌊q⌋ := by
  unfold ratTrunc
  rw [Int.tdiv_eq_ediv (Rat.num_nonneg.mpr h) (by positivity), Rat.floor_def]

theorem ratTrunc_neg (q : ℚ) : ratTrunc (-q) = -ratTrunc q := by
  unfold ratTrunc
  rw [Rat.num_neg_eq_neg_num, Rat.den_neg_eq_den, Int.neg_tdiv]

/-! ## Claims about the bar aggregator -/

/-- C4: a tick in the same floored minute as the open bucket extends it
(high = max, low = min, close = latest price, volume summed) and returns
none; a tick in a strictly later floored minute finalizes exactly one bar
for the open bucket and seeds a new bucket from the tick, regardless of the
gap; the spec's concrete tick scenario and gap scenario both hold. -/
theorem c4_aggregator (b : CandleBucket) (ts : Int) (p v : ℚ) :
    (floorMinuteMs ts = b.start →
      aggUpdate (some b) ts p v =
        (none, some ⟨b.start, b.open_, max b.high p, min b.low p, p, b.volume + v⟩)) ∧
    (b.start < floorMinuteMs ts →
      aggUpdate (some b) ts p v =
        (some ⟨b.start, b.open_, b.high, b.low, b.close, b.volume⟩,
         some ⟨floorMinuteMs ts, p, p, p, p, v⟩)) ∧
    aggRun none [(10000, 100, 1), (40000, 105, 2), (55000, 95, 3), (65000, 99, 1)] =
      ([⟨0, 100, 105, 95, 95, 6⟩], some ⟨60000, 99, 99, 99, 99, 1⟩) ∧
    aggRun none [(0, 100, 1), (180000, 99, 1)] =
      ([⟨0, 100, 100, 100, 100, 1⟩], some ⟨180000, 99, 99, 99, 99, 1⟩) := by
  refine ⟨fun h => ?_, fun h => ?_, ?_, ?_⟩
  · simp [aggUpdate, h]
  · simp [aggUpdate, h]
  · norm_num [aggRun, aggUpdate, floorMinuteMs, max_def, min_def]
  · norm_num [aggRun, aggUpdate, floorMinuteMs, max_def, min_def]

/-- C4 witness: the same-minute and later-minute branches at concrete inputs. -/
theorem c4_aggregator_witness :
    (aggUpdate (some ⟨0, 100, 100, 100, 100, 1⟩) 40000 105 2 =
      (none, some ⟨0, 100, max 100 105, min 100 105, 105, 1 + 2⟩)) ∧
    (aggUpdate (some ⟨0, 100, 105, 95, 95, 6⟩) 65000 99 1 =
      (some ⟨0, 100, 105, 95, 95, 6⟩,
       some ⟨floorMinuteMs 65000, 99, 99, 99, 99, 1⟩)) :=
  ⟨(c4_aggregator ⟨0, 100, 100, 100, 100, 1⟩ 40000 105 2).1 (by decide),
   (c4_aggregator ⟨0, 100, 105, 95, 95, 6⟩ 65000 99 1).2.1 (by decide)⟩

/-- C10: an out-of-order tick whose floored minute is strictly earlier than
the bucket's start is merged into the current bucket exactly like a
same-minute tick (start unchanged, high/low/close/volume updated) and
returns none — no bar is finalized or emitted for the earlier minute. -/
theorem c10_early_tick_merge (b : CandleBucket) (ts : Int) (p v : ℚ)
    (h : floorMinuteMs ts < b.start) :
    aggUpdate (some b) ts p v =
      (none, some ⟨b.start, b.open_, max b.high p, min b.low p, p, b.volume + v⟩) := by
  simp [aggUpdate, if_neg (not_lt.mpr h.le)]

/-- C10 witness: a tick from minute 0 against a bucket opened at minute 1. -/
theorem c10_early_tick_merge_witness :
    aggUpdate (some ⟨60000, 100, 100, 100, 100, 1⟩) 10000 105 2 =
      (none, some ⟨60000, 100, max 100 105, min 100 105, 105, 1 + 2⟩) :=
  c10_early_tick_merge ⟨60000, 100, 100, 100, 100, 1⟩ 10000 105 2 (by decide)

/-! ## Claims about price quantization -/

/-- C8 counterexample: for the negative price −3/2 with tick 1 the code
returns −1 (truncation toward zero), not the round-down value
⌊(−3/2)/1⌋·1 = −2 that the claim requires for *every* price. -/
theorem c8_counterexample :
    quantize_price (-(3 / 2)) (some 1) = -1 ∧
    (⌊((-(3 / 2) : ℚ)) / 1⌋ : ℚ) * 1 = -2 := by
  have h32 : ratTrunc (3 / 2) = 1 := by
    rw [ratTrunc_eq_floor (3 / 2) (by norm_num), Int.floor_eq_iff]
    constructor <;> norm_num
  have hneg : ratTrunc (-(3 / 2)) = -1 := by rw [ratTrunc_neg, h32]
  constructor
  · simp only [quantize_price]
    rw [if_neg (by norm_num : ¬((1 : ℚ) ≤ 0)), div_one, hneg]
    norm_num
  · have hf : ⌊((-(3 / 2)) : ℚ)⌋ = -2 := by
      rw [Int.floor_eq_iff]
      constructor <;> norm_num
    rw [div_one, hf]
    norm_num

/-- C8 (amended): with tick > 0, `quantize_price` truncates `price/tick`
toward zero and multiplies back; for non-negative prices this is exactly the
round-down to the nearest tick multiple (so quantize(100.7, 1.0) = 100.0);
with a missing or non-positive tick the price is returned unchanged. -/
theorem c8_quantize_truncates (p u : ℚ) :
    (0 < u → 0 ≤ p → quantize_price p (some u) = (⌊p / u⌋ : ℚ) * u) ∧
    (0 < u → quantize_price p (some u) = (ratTrunc (p / u) : ℚ) * u) ∧
    (u ≤ 0 → quantize_price p (some u) = p) ∧
    quantize_price p none = p ∧
    quantize_price (1007 / 10) (some 1) = 100 := by
  refine ⟨fun hu hp => ?_, fun hu => ?_, fun hu => ?_, rfl, ?_⟩
  · simp only [quantize_price]
    rw [if_neg (not_le.mpr hu), ratTrunc_eq_floor _ (by positivity)]
  · simp only [quantize_price]
    rw [if_neg (not_le.mpr hu)]
  · simp only [quantize_price]
    rw [if_pos hu]
  · simp only [quantize_price]
    rw [if_neg (by norm_num : ¬((1 : ℚ) ≤ 0)), div_one, ratTrunc_eq_floor _ (by norm_num)]
    have hf : ⌊(1007 / 10 : ℚ)⌋ = 100 := by
      rw [Int.floor_eq_iff]
      constructor <;> norm_num
    rw [hf]
    norm_num

/-- C8 witness: the spec's example 100.7 with tick 1.0 under the floor form. -/
theorem c8_quantize_truncates_witness :
    quantize_price (1007 / 10) (some 1) = (⌊(1007 / 10 : ℚ) / 1⌋ : ℚ) * 1 :=
  (c8_quantize_truncates (1007 / 10) 1).1 (by norm_num) (by norm_num)

end UA

namespace UA

/-! ## Claims about the execution/accounting model -/

/-- C1: for close prices [100,100,100,50], signals [0,1,0,-1], cash 1000,
fee 0, slippage 0, max_fraction 1, cooldown 0 and drawdown-stop 0.3 the
returned StoppedReason is "risk_violation"; the per-bar loop breaks at bar 3
(the breach bar) having entered exactly 4 iterations, the in-loop equity
curve is [1000, 1000, 1000, 500], and bar 3's equity of 500 satisfies the
code's drawdown test against starting cash 1000. -/
theorem c1_scenario_risk_stop :
    (simulate_long_only [100, 100, 100, 50] [0, 1, 0, -1] 1000 0 0 1 0
        (some (3 / 10))).metrics.stoppedReason = "risk_violation" ∧
    (simulate_long_only [100, 100, 100, 50] [0, 1, 0, -1] 1000 0 0 1 0
        (some (3 / 10))).haltBar = some 3 ∧
    (simulate_long_only [100, 100, 100, 50] [0, 1, 0, -1] 1000 0 0 1 0
        (some (3 / 10))).loopBars = 3 + 1 ∧
    (simulate_long_only [100, 100, 100, 50] [0, 1, 0, -1] 1000 0 0 1 0
        (some (3 / 10))).equityCurve.take 4 = [1000, 1000, 1000, 500] ∧
    riskBreachB 1000 (some (3 / 10)) 500 = true := by
  refine ⟨?_, ?_, ?_, ?_, ?_⟩ <;>
    norm_num [simulate_long_only, simLoop, simTrade, simInit, riskBreachB,
      List.zip, List.zipWith, List.take, List.cons_ne_nil, Bool.and_eq_true,
      decide_eq_true_eq]

/-- C6: the execution/accounting model is deterministic — it is a pure
function of its arguments, so two invocations on identical inputs return
identical results (metrics and equity curve); no clock or randomness enters. -/
theorem c6_determinism (ps qs : List ℚ) (sg tg : List Int)
    (cashA cashB feeA feeB slA slB mfA mfB : ℚ) (cdA cdB : Int) (sdA sdB : Option ℚ)
    (hp : ps = qs) (hs : sg = tg) (hc : cashA = cashB) (hf : feeA = feeB)
    (hsl : slA = slB) (hm : mfA = mfB) (hcd : cdA = cdB) (hsd : sdA = sdB) :
    simulate_long_only ps sg cashA feeA slA mfA cdA sdA =
      simulate_long_only qs tg cashB feeB slB mfB cdB sdB := by
  subst hp hs hc hf hsl hm hcd hsd
  rfl

/-- C6 witness: two invocations on the spec's scenario inputs coincide. -/
theorem c6_determinism_witness :
    simulate_long_only [100, 100, 100, 50] [0, 1, 0, -1] 1000 (1 / 1000) (1 / 2000) 1 0
        (some (3 / 10)) =
      simulate_long_only [100, 100, 100, 50] [0, 1, 0, -1] 1000 (1 / 1000) (1 / 2000) 1 0
        (some (3 / 10)) :=
  c6_determinism _ _ _ _ _ _ _ _ _ _ _ _ _ _ _ _ rfl rfl rfl rfl rfl rfl rfl rfl

end UA

namespace UA

/-! ## Claims about the exchange protocol client -/

theorem requestLoop_exhausts (outcome : Nat → HttpOutcome) (jitter : Nat → ℚ)
    (fuel : Nat) :
    ∀ (attempt : Nat) (b : ℚ),
      (∀ k, attempt ≤ k → k < attempt + fuel → retryableOutcome (outcome k)) →
      (requestLoop outcome jitter fuel attempt b).1 = .retryExhausted ∧
      (requestLoop outcome jitter fuel attempt b).2.length = fuel := by
  induction fuel with
  | zero => intro attempt b _; simp [requestLoop]
  | succ n ih =>
    intro attempt b h
    have hc := h attempt (le_refl _) (by omega)
    cases ho : outcome attempt with
    | success =>
      rw [ho] at hc
      exact absurd hc (by simp [retryableOutcome])
    | httpStatus s ra =>
      have hrs : retryableStatus s = true := by rw [ho] at hc; exact hc
      have hrest := ih (attempt + 1) (nextBackoff b) (fun k hk1 hk2 => h k (by omega) (by omega))
      simp only [requestLoop, ho, hrs, if_true]
      simpa using hrest
    | transportError =>
      have hrest := ih (attempt + 1) (nextBackoff b) (fun k hk1 hk2 => h k (by omega) (by omega))
      simp only [requestLoop, ho]
      simpa using hrest

theorem requestLoop_raises (outcome : Nat → HttpOutcome) (jitter : Nat → ℚ)
    (fuel attempt : Nat) (b : ℚ) (s : Nat) (ra : Option ℚ)
    (ho : outcome attempt = .httpStatus s ra) (hs : retryableStatus s = false) :
    requestLoop outcome jitter (fuel + 1) attempt b =
      (.raised (classify_http_error s), []) := by
  simp [requestLoop, ho, hs]

/-- C5: on HTTP 429/500/502/503/504 or transport failure `_request` retries
up to the attempt cap 5 and then raises the exhausted-retry failure; the
per-attempt backoff starts at 1/2, doubles, and is capped at 8; a
`Retry-After` value is a floor on the (pre- and post-jitter) wait; any
non-retryable error status raises immediately with no retry, classified as
401→authentication, 403→permission, 404→not-found, other 4xx→invalid-request
and anything else→generic exchange error. -/
theorem c5_retry_policy :
    (∀ (outcome : Nat → HttpOutcome) (jitter : Nat → ℚ),
        (∀ k, k < 5 → retryableOutcome (outcome k)) →
        (upbit_request outcome jitter).1 = .retryExhausted ∧
        (upbit_request outcome jitter).2.length = 5) ∧
    (∀ (outcome : Nat → HttpOutcome) (jitter : Nat → ℚ) (s : Nat) (ra : Option ℚ),
        outcome 0 = .httpStatus s ra → retryableStatus s = false →
        upbit_request outcome jitter = (.raised (classify_http_error s), [])) ∧
    (∀ s : Nat, 400 ≤ s → retryableStatus s = false →
        classify_http_error s =
          if s = 401 then .authentication
          else if s = 403 then .permission
          else if s = 404 then .notFound
          else if s < 500 then .invalidRequest
          else .exchange) ∧
    (∀ b : ℚ, nextBackoff b ≤ 8) ∧
    (∀ b : ℚ, b ≤ 4 → nextBackoff b = b * 2) ∧
    (∀ b ra j : ℚ, 0 ≤ j → 0 ≤ ra → ra ≤ retryWait b ra j) ∧
    (∀ ra : ℚ, upbit_request (fun _ => .httpStatus 503 (some ra)) (fun _ => 0) =
        (.retryExhausted,
         [retryWait (1 / 2) ra 0, retryWait 1 ra 0, retryWait 2 ra 0, retryWait 4 ra 0,
          retryWait 8 ra 0])) ∧
    upbit_request (fun _ => .httpStatus 503 none) (fun _ => 0) =
      (.retryExhausted, [1 / 2, 1, 2, 4, 8]) := by
  refine ⟨?_, ?_, ?_, ?_, ?_, ?_, ?_, ?_⟩
  · intro outcome jitter h
    exact requestLoop_exhausts outcome jitter 5 0 (1 / 2) (fun k _ hk => h k (by omega))
  · intro outcome jitter s ra ho hs
    exact requestLoop_raises outcome jitter 4 0 (1 / 2) s ra ho hs
  · intro s h400 hnr
    have h429 : s ≠ 429 := by
      intro h
      rw [h] at hnr
      simp [retryableStatus] at hnr
    unfold classify_http_error
    split_ifs <;> first | rfl | omega
  · intro b
    exact min_le_right _ _
  · intro b hb
    have : b * 2 ≤ 8 := by linarith
    simpa [nextBackoff] using this
  · intro b ra j hj hra
    have h1 : ra ≤ max b ra := le_max_right _ _
    have h2 : (1 : ℚ) ≤ 1 + (1 / 5) * j := by linarith
    calc ra = ra * 1 := by ring
    _ ≤ max b ra * (1 + (1 / 5) * j) := by
        apply mul_le_mul h1 h2 (by norm_num) (le_trans hra h1)
    _ = retryWait b ra j := rfl
  · intro ra
    norm_num [upbit_request, requestLoop, retryableStatus, nextBackoff, min_def]
  · norm_num [upbit_request, requestLoop, retryableStatus, nextBackoff, retryWait, min_def,
      max_def]

/-- C5 witness: the universally quantified parts at concrete inputs. -/
theorem c5_retry_policy_witness :
    ((upbit_request (fun _ => .transportError) (fun _ => 0)).1 = .retryExhausted ∧
      (upbit_request (fun _ => .transportError) (fun _ => 0)).2.length = 5) ∧
    upbit_request (fun _ => .httpStatus 404 none) (fun _ => 0) =
      (.raised (classify_http_error 404), []) ∧
    classify_http_error 404 =
      (if 404 = 401 then .authentication
       else if 404 = 403 then .permission
       else if 404 = 404 then .notFound
       else if 404 < 500 then .invalidRequest
       else .exchange) ∧
    nextBackoff 4 = 4 * 2 ∧
    (3 : ℚ) ≤ retryWait (1 / 2) 3 0 :=
  ⟨c5_retry_policy.1 (fun _ => .transportError) (fun _ => 0)
      (fun k _ => by trivial),
   c5_retry_policy.2.1 (fun _ => .httpStatus 404 none) (fun _ => 0) 404 none rfl (by decide),
   c5_retry_policy.2.2.1 404 (by norm_num) (by decide),
   c5_retry_policy.2.2.2.2.1 4 (by norm_num),
   c5_retry_policy.2.2.2.2.2.1 (1 / 2) 3 0 (by norm_num) (by norm_num)⟩

end UA

namespace UA

/-! ## Phase lemmas for the live per-bar pipeline -/

theorem exitPhase_trailStop (env : BarEnv) (krw : ℚ) (st : PMState) :
    (exitPhase env krw st).2.1.trailStop = none ∨
    (exitPhase env krw st).2.1.trailStop = st.trailStop := by
  unfold exitPhase
  cases env.exitOutcome with
  | none => right; rfl
  | some p => obtain ⟨k, c⟩ := p; left; rfl

theorem tpPhase_trailStop (cfg : PCfg) (env : BarEnv) (krw : ℚ) (st : PMState) (px : ℚ) :
    (tpPhase cfg env krw st px).2.1.trailStop = st.trailStop := by
  unfold tpPhase
  split_ifs <;> first
    | rfl
    | (cases env.tpOutcome with
       | none => rfl
       | some p => obtain ⟨k, c⟩ := p; rfl)

theorem tpPhase_bookkeeping (cfg : PCfg) (env : BarEnv) (krw : ℚ) (st : PMState) (px : ℚ) :
    (tpPhase cfg env krw st px).2.1.bars = st.bars ∧
    (tpPhase cfg env krw st px).2.1.lastTradeBar = st.lastTradeBar ∧
    (tpPhase cfg env krw st px).2.1.market = st.market ∧
    (tpPhase cfg env krw st px).2.1.minTotal = st.minTotal ∧
    (tpPhase cfg env krw st px).2.1.priceUnit = st.priceUnit := by
  unfold tpPhase
  split_ifs <;> first
    | exact ⟨rfl, rfl, rfl, rfl, rfl⟩
    | (cases env.tpOutcome with
       | none => exact ⟨rfl, rfl, rfl, rfl, rfl⟩
       | some p => obtain ⟨k, c⟩ := p; exact ⟨rfl, rfl, rfl, rfl, rfl⟩)

theorem entryPhase_trailStop (cfg : PCfg) (env : BarEnv) (krw : ℚ) (st : PMState) (px : ℚ) :
    (entryPhase cfg env krw st px).2.1.trailStop = none ∨
    (entryPhase cfg env krw st px).2.1.trailStop = st.trailStop := by
  unfold entryPhase
  split_ifs <;> first
    | (right; rfl)
    | (cases env.entryOutcome with
       | none => right; rfl
       | some p => obtain ⟨k, c⟩ := p; left; rfl)

theorem barPipeline_trailStop (cfg : PCfg) (env : BarEnv) (krw : ℚ) (st2 : PMState) (px : ℚ) :
    (barPipeline cfg env krw st2 px).2.1.trailStop = none ∨
    (barPipeline cfg env krw st2 px).2.1.trailStop = st2.trailStop := by
  unfold barPipeline
  split_ifs with hex
  · exact exitPhase_trailStop env krw st2
  · rcases entryPhase_trailStop cfg env (tpPhase cfg env krw st2 px).1
      (tpPhase cfg env krw st2 px).2.1 px with h | h
    · exact Or.inl h
    · right
      show (entryPhase cfg env (tpPhase cfg env krw st2 px).1
        (tpPhase cfg env krw st2 px).2.1 px).2.1.trailStop = st2.trailStop
      rw [h, tpPhase_trailStop]

theorem trailUpdate_mono (mult c px : ℚ) (tr av : Option ℚ) (x : ℚ) (hx : tr = some x) :
    ∃ y, trailUpdate mult c tr av px = some y ∧ x ≤ y := by
  subst hx
  unfold trailUpdate
  split_ifs with h
  · cases av with
    | none => exact ⟨x, rfl, le_refl x⟩
    | some a =>
      refine ⟨max ((some x).getD 0) (px - mult * a), rfl, ?_⟩
      simp [Option.getD]
  · exact ⟨x, rfl, le_refl x⟩

/-- C7: while a position is held, each bar recomputes the trailing stop as
`max(previous stop, close − mult·ATR)`; hence once set it never moves down:
after any bar-pipeline step the stop is either cleared (position
closed/reopened) or at least its previous value. -/
theorem c7_trailing_monotone :
    (∀ (mult c px a : ℚ) (tr : Option ℚ), 0 < c → 0 < mult →
        trailUpdate mult c tr (some a) px = some (max (tr.getD 0) (px - mult * a))) ∧
    (∀ (mult c px : ℚ) (tr av : Option ℚ) (x : ℚ), tr = some x →
        ∃ y, trailUpdate mult c tr av px = some y ∧ x ≤ y) ∧
    (∀ (cfg : PCfg) (env : BarEnv) (krw : ℚ) (st : PMState) (row : BarRow) (tick : ℚ)
        (x : ℚ), st.trailStop = some x →
        (barStep cfg env krw st row tick).2.1.trailStop = none ∨
        ∃ y, (barStep cfg env krw st row tick).2.1.trailStop = some y ∧ x ≤ y) := by
  refine ⟨fun mult c px a tr hc hm => ?_, fun mult c px tr av x hx => trailUpdate_mono _ _ _ _ _ _ hx, ?_⟩
  · unfold trailUpdate
    rw [if_pos ⟨hc, hm⟩]
  · intro cfg env krw st row tick x hx
    obtain ⟨y, hy, hxy⟩ := trailUpdate_mono cfg.atrTrailingMult st.coinQty
      (lastClose (stepDf st row) tick) st.trailStop env.atrVal x hx
    rcases barPipeline_trailStop cfg env krw
        { st with df := stepDf st row, bars := st.bars + 1, lastSignal := env.sigVal,
                  trailStop := trailUpdate cfg.atrTrailingMult st.coinQty st.trailStop env.atrVal
                    (lastClose (stepDf st row) tick) }
        (lastClose (stepDf st row) tick) with h | h
    · exact Or.inl h
    · exact Or.inr ⟨y, h.trans hy, hxy⟩

/-- C7 witness: a held position with stop 90, ATR 2, multiplier 1 and close
95 tightens the stop to max(90, 95 − 2) = 93 ≥ 90. -/
theorem c7_trailing_monotone_witness :
    trailUpdate 1 1 (some 90) (some 2) 95 = some (max ((some (90 : ℚ)).getD 0) (95 - 1 * 2)) ∧
    ∃ y, trailUpdate 1 1 (some 90) (some 2) 95 = some y ∧ (90 : ℚ) ≤ y :=
  ⟨c7_trailing_monotone.1 1 1 95 2 (some 90) (by norm_num) (by norm_num),
   c7_trailing_monotone.2.1 1 1 95 (some 90) (some 2) 90 rfl⟩

/-! ## Claims about the live message loop -/

/-- C9: an inbound frame that fails to parse into a trade is dropped — the
loop state (aggregators, positions, balances, counters, orders) is passed on
unchanged and processing continues with the remaining frames. -/
theorem c9_parse_drop (cfg : PCfg) (startEq : ℚ) (env : Nat → BarEnv) (i : Nat) (krw : ℚ)
    (states : List PMState) (orders : List OrderReq) (m : RawMsg) (rest : List RawMsg)
    (h : parse_trade m = none) :
    pLoop cfg startEq env i krw states orders (m :: rest) =
      pLoop cfg startEq env (i + 1) krw states orders rest := by
  simp [pLoop, pStep, h]

/-- C9 witness: a frame with a missing trade price is dropped. -/
theorem c9_parse_drop_witness :
    pLoop ⟨1, 3 / 10, 0, 0, 0, 1 / 2⟩ 1000 (fun _ => ⟨0, none, true, none, none, none⟩) 0 0
        [] [] [⟨"KRW-BTC", none, none, false, some 0⟩] =
      pLoop ⟨1, 3 / 10, 0, 0, 0, 1 / 2⟩ 1000 (fun _ => ⟨0, none, true, none, none, none⟩) (0 + 1)
        0 [] [] [] :=
  c9_parse_drop _ _ _ _ _ _ _ _ _ rfl

end UA

namespace UA

/-! ## Quantity lemmas for the live per-bar pipeline -/

theorem exitPhase_coinQty (env : BarEnv) (krw : ℚ) (st : PMState)
    (hst : 0 ≤ st.coinQty)
    (henv : ∀ k c x, env.exitOutcome = some (k, c) → c = some x → 0 ≤ x) :
    0 ≤ (exitPhase env krw st).2.1.coinQty := by
  unfold exitPhase
  cases ho : env.exitOutcome with
  | none => exact hst
  | some p =>
    obtain ⟨k, c⟩ := p
    cases hc : c with
    | none => exact le_refl 0
    | some x => exact henv k c x ho hc

theorem tpPhase_coinQty (cfg : PCfg) (env : BarEnv) (krw : ℚ) (st : PMState) (px : ℚ)
    (hst : 0 ≤ st.coinQty) (hfrac : cfg.tpFrac ≤ 1)
    (henv : ∀ k c x, env.tpOutcome = some (k, c) → c = some x → 0 ≤ x) :
    0 ≤ (tpPhase cfg env krw st px).2.1.coinQty := by
  unfold tpPhase
  split_ifs with h1 h2 h3
  · cases ho : env.tpOutcome with
    | none => exact hst
    | some p =>
      obtain ⟨k, c⟩ := p
      cases hc : c with
      | none =>
        show 0 ≤ st.coinQty - st.coinQty * cfg.tpFrac
        nlinarith [hst, hfrac]
      | some x => exact henv k c x ho hc
  · exact hst
  · exact hst
  · exact hst

theorem entryPhase_coinQty (cfg : PCfg) (env : BarEnv) (krw : ℚ) (st : PMState) (px : ℚ)
    (hst : 0 ≤ st.coinQty)
    (henv : ∀ k c x, env.entryOutcome = some (k, c) → c = some x → 0 ≤ x) :
    0 ≤ (entryPhase cfg env krw st px).2.1.coinQty := by
  unfold entryPhase
  split_ifs with h1 h2
  · exact hst
  · cases ho : env.entryOutcome with
    | none => exact hst
    | some p =>
      obtain ⟨k, c⟩ := p
      cases hc : c with
      | none => exact hst
      | some x => exact henv k c x ho hc
  · exact hst

theorem barPipeline_coinQty (cfg : PCfg) (env : BarEnv) (krw : ℚ) (st2 : PMState) (px : ℚ)
    (hst : 0 ≤ st2.coinQty) (hfrac : cfg.tpFrac ≤ 1)
    (hexE : ∀ k c x, env.exitOutcome = some (k, c) → c = some x → 0 ≤ x)
    (htpE : ∀ k c x, env.tpOutcome = some (k, c) → c = some x → 0 ≤ x)
    (henE : ∀ k c x, env.entryOutcome = some (k, c) → c = some x → 0 ≤ x) :
    0 ≤ (barPipeline cfg env krw st2 px).2.1.coinQty := by
  unfold barPipeline
  split_ifs with hex
  · exact exitPhase_coinQty env krw st2 hst hexE
  · exact entryPhase_coinQty cfg env (tpPhase cfg env krw st2 px).1
      (tpPhase cfg env krw st2 px).2.1 px
      (tpPhase_coinQty cfg env krw st2 px hst hfrac htpE) henE

theorem exitPhase_orders (env : BarEnv) (krw : ℚ) (st : PMState) :
    ∀ o ∈ (exitPhase env krw st).2.2, o.side = "sell" := by
  unfold exitPhase
  cases env.exitOutcome with
  | none =>
    intro o ho
    simp at ho
    subst ho
    rfl
  | some p =>
    obtain ⟨k, c⟩ := p
    intro o ho
    simp at ho
    subst ho
    rfl

theorem tpPhase_orders (cfg : PCfg) (env : BarEnv) (krw : ℚ) (st : PMState) (px : ℚ) :
    ∀ o ∈ (tpPhase cfg env krw st px).2.2, o.side = "sell" := by
  unfold tpPhase
  split_ifs with h1 h2 h3
  · cases env.tpOutcome with
    | none =>
      intro o ho
      simp at ho
      subst ho
      rfl
    | some p =>
      obtain ⟨k, c⟩ := p
      intro o ho
      simp at ho
      subst ho
      rfl
  · intro o ho; simp at ho
  · intro o ho; simp at ho
  · intro o ho; simp at ho

theorem entryPhase_orders (cfg : PCfg) (env : BarEnv) (krw : ℚ) (st : PMState) (px : ℚ) :
    ∀ o ∈ (entryPhase cfg env krw st px).2.2, o.side = "buy" ∧ o.qtyAtIssue = 0 := by
  unfold entryPhase
  split_ifs with h1 h2
  · intro o ho; simp at ho
  · cases env.entryOutcome with
    | none =>
      intro o ho
      simp at ho
      subst ho
      exact ⟨rfl, h1.2.1⟩
    | some p =>
      obtain ⟨k, c⟩ := p
      intro o ho
      simp at ho
      subst ho
      exact ⟨rfl, h1.2.1⟩
  · intro o ho; simp at ho

end UA

namespace UA

/-- C3: position-quantity invariants.  In `simulate_long_only` one bar step
keeps the position non-negative and only increases it (opens) from a flat
position.  In the live per-bar pipeline every submitted buy order is
submitted with the market's then-current quantity equal to zero, and —
provided the exchange never reports a negative balance and the partial-TP
ratio is at most 1 — the held quantity stays non-negative. -/
theorem c3_position_invariants :
    (∀ (fee sl mf : ℚ) (cd : Int) (i : Nat) (price : ℚ) (sig : Int) (s : SimState),
        0 ≤ s.position →
        0 ≤ (simTrade fee sl mf cd i price sig s).position ∧
        (s.position < (simTrade fee sl mf cd i price sig s).position → s.position = 0)) ∧
    (∀ (cfg : PCfg) (env : BarEnv) (krw : ℚ) (st : PMState) (row : BarRow) (tick : ℚ),
        ∀ o ∈ (barStep cfg env krw st row tick).2.2, o.side = "buy" → o.qtyAtIssue = 0) ∧
    (∀ (cfg : PCfg) (env : BarEnv) (krw : ℚ) (st : PMState) (row : BarRow) (tick : ℚ),
        0 ≤ st.coinQty → cfg.tpFrac ≤ 1 →
        (∀ k c x, env.exitOutcome = some (k, c) → c = some x → 0 ≤ x) →
        (∀ k c x, env.tpOutcome = some (k, c) → c = some x → 0 ≤ x) →
        (∀ k c x, env.entryOutcome = some (k, c) → c = some x → 0 ≤ x) →
        0 ≤ (barStep cfg env krw st row tick).2.1.coinQty) := by
  refine ⟨?_, ?_, ?_⟩
  · intro fee sl mf cd i price sig s hpos
    unfold simTrade
    split_ifs with hbuy hbp hqty hsell
    · exact ⟨hpos, fun hlt => absurd hlt (lt_irrefl _)⟩
    · exact ⟨le_of_lt hqty, fun _ => hbuy.2.1⟩
    · exact ⟨hpos, fun hlt => absurd hlt (lt_irrefl _)⟩
    · exact ⟨le_refl 0, fun hlt => absurd (lt_of_le_of_lt hpos hlt) (lt_irrefl 0)⟩
    · exact ⟨hpos, fun hlt => absurd hlt (lt_irrefl _)⟩
  · intro cfg env krw st row tick o ho hside
    have hps : ∀ (st2 : PMState) (px : ℚ),
        o ∈ (barPipeline cfg env krw st2 px).2.2 → o.qtyAtIssue = 0 := by
      intro st2 px hmem
      unfold barPipeline at hmem
      split_ifs at hmem with hex
      · have := exitPhase_orders env krw st2 o hmem
        rw [hside] at this
        exact absurd this (by decide)
      · simp only [List.mem_append] at hmem
        rcases hmem with hmem | hmem
        · have := tpPhase_orders cfg env krw st2 px o hmem
          rw [hside] at this
          exact absurd this (by decide)
        · exact (entryPhase_orders cfg env (tpPhase cfg env krw st2 px).1
            (tpPhase cfg env krw st2 px).2.1 px o hmem).2
    exact hps _ _ ho
  · intro cfg env krw st row tick hst hfrac hexE htpE henE
    exact barPipeline_coinQty cfg env krw
      { st with df := stepDf st row, bars := st.bars + 1, lastSignal := env.sigVal,
                trailStop := trailUpdate cfg.atrTrailingMult st.coinQty st.trailStop env.atrVal
                  (lastClose (stepDf st row) tick) }
      (lastClose (stepDf st row) tick) hst hfrac hexE htpE henE

/-- C3 witness: an entry submitted from a flat state carries quantity 0, the
simulator step from a flat state stays non-negative, and a live bar step with
an exchange-refreshed balance of 0.4 stays non-negative. -/
theorem c3_position_invariants_witness :
    (0 ≤ (simTrade 0 0 1 0 1 100 1 ⟨[1000], 0, 0, [], 0, 1000, -(10 ^ 9)⟩).position ∧
      ((⟨[1000], 0, 0, [], 0, 1000, -(10 ^ 9)⟩ : SimState).position <
          (simTrade 0 0 1 0 1 100 1 ⟨[1000], 0, 0, [], 0, 1000, -(10 ^ 9)⟩).position →
        (⟨[1000], 0, 0, [], 0, 1000, -(10 ^ 9)⟩ : SimState).position = 0)) ∧
    (∀ o ∈ (barStep ⟨1, 3 / 10, 0, 0, 0, 1 / 2⟩ ⟨1, none, true, none, none, some (some 1, some 1)⟩
        100 ⟨"KRW-BTC", none, [], 0, -(10 ^ 9), 0, 0, 0, none, false, none, none⟩
        ⟨0, 100, 100, 100, 100, 1⟩ 100).2.2, o.side = "buy" → o.qtyAtIssue = 0) ∧
    0 ≤ (barStep ⟨1, 3 / 10, 0, 0, 0, 1 / 2⟩ ⟨1, none, true, none, none, some (some 1, some (2 / 5))⟩
        100 ⟨"KRW-BTC", none, [], 0, -(10 ^ 9), 0, 0, 0, none, false, none, none⟩
        ⟨0, 100, 100, 100, 100, 1⟩ 100).2.1.coinQty :=
  ⟨c3_position_invariants.1 0 0 1 0 1 100 1 ⟨[1000], 0, 0, [], 0, 1000, -(10 ^ 9)⟩ (le_refl 0),
   c3_position_invariants.2.1 ⟨1, 3 / 10, 0, 0, 0, 1 / 2⟩
     ⟨1, none, true, none, none, some (some 1, some 1)⟩ 100
     ⟨"KRW-BTC", none, [], 0, -(10 ^ 9), 0, 0, 0, none, false, none, none⟩
     ⟨0, 100, 100, 100, 100, 1⟩ 100,
   c3_position_invariants.2.2 ⟨1, 3 / 10, 0, 0, 0, 1 / 2⟩
     ⟨1, none, true, none, none, some (some 1, some (2 / 5))⟩ 100
     ⟨"KRW-BTC", none, [], 0, -(10 ^ 9), 0, 0, 0, none, false, none, none⟩
     ⟨0, 100, 100, 100, 100, 1⟩ 100 (le_refl 0) (by norm_num)
     (fun k c x h _ => by simp at h)
     (fun k c x h _ => by simp at h)
     (fun k c x h hx => by
       injection h with h2
       injection h2 with hk hc
       subst hc
       injection hx with hx2
       subst hx2
       norm_num)⟩

end UA

namespace UA

/-- C2 counterexample: a portfolio with one market holding quantity 1 with an
armed trailing stop (100) and a sell signal; the tick at minute 1 (price 50)
finalizes a bar whose pipeline would submit the exit sell — shown by the
second conjunct — but the coordinator's risk check fires first
((50 − 1000)/1000 ≤ −0.3) and the loop *returns* `stopped risk` at once:
only 1 of the 2 frames is consumed and no order is ever submitted, so an
armed exit does not execute on a subsequent bar after the halt. -/
theorem c2_counterexample :
    pLoop ⟨1, 3 / 10, 0, 0, 0, 1 / 2⟩ 1000
        (fun _ => ⟨-1, none, true, some (some 0, some 0), none, none⟩) 0 0
        [⟨"KRW-BTC", some ⟨0, 100, 100, 100, 100, 1⟩, [], 0, -(10 ^ 9), 0, 1, 100, some 100,
          false, none, none⟩]
        []
        [⟨"KRW-BTC", some 50, some 1, false, some 60000⟩,
         ⟨"KRW-BTC", some 50, some 1, false, some 120000⟩] =
      ⟨0, [⟨"KRW-BTC", some ⟨0, 100, 100, 100, 100, 1⟩, [], 0, -(10 ^ 9), 0, 1, 100, some 100,
            false, none, none⟩],
       [], 1, some 50⟩ ∧
    (barStep ⟨1, 3 / 10, 0, 0, 0, 1 / 2⟩ ⟨-1, none, true, some (some 0, some 0), none, none⟩ 0
        ⟨"KRW-BTC", some ⟨60000, 50, 50, 50, 50, 1⟩, [], 0, -(10 ^ 9), 0, 1, 100, some 100,
          false, none, none⟩
        ⟨0, 100, 100, 100, 100, 1⟩ 50).2.2 =
      [⟨"sell", "KRW-BTC", none, some 1, "market", 1⟩] := by
  constructor <;>
    norm_num [pLoop, pStep, parse_trade, findState, List.find?, replaceState, aggUpdate,
      floorMinuteMs, equityOf, lastClose, listSum, barStep, barPipeline, stepDf, exitSignal,
      trailHit, trailUpdate, exitPhase, tpPhase, entryPhase, belowMinTotal, entryBudget,
      Bool.and_eq_true, Bool.or_eq_true, decide_eq_true_eq, max_def, min_def]

/-- C2 (amended): once the max-daily-loss drawdown is breached on a frame,
the coordinator returns the risk-stop result immediately: the breaching
frame's bar pipeline never runs, no order (entry *or* exit) is submitted,
the market states are left as they were, and no later frame is processed. -/
theorem c2_halt_returns_immediately (cfg : PCfg) (startEq : ℚ) (env : Nat → BarEnv) (i : Nat)
    (krw : ℚ) (states : List PMState) (orders : List OrderReq) (m : RawMsg)
    (rest : List RawMsg) (mkt : String) (ts : Int) (price vol : ℚ) (st : PMState)
    (hp : parse_trade m = some (mkt, ts, price, vol))
    (hf : findState states mkt = some st)
    (h1 : 0 < startEq) (h2 : 0 < cfg.maxDailyLoss)
    (h3 : (equityOf krw states mkt price - startEq) / startEq ≤ -cfg.maxDailyLoss) :
    pLoop cfg startEq env i krw states orders (m :: rest) =
      ⟨krw, states, orders, i + 1, some (equityOf krw states mkt price)⟩ := by
  have hstep : pStep cfg startEq (env i) krw states m =
      .inr (equityOf krw states mkt price) := by
    simp only [pStep, hp, hf]
    rw [if_pos ⟨h1, h2, h3⟩]
  simp [pLoop, hstep]

/-- C2 witness: the amended statement at the counterexample's inputs. -/
theorem c2_halt_returns_immediately_witness :
    pLoop ⟨1, 3 / 10, 0, 0, 0, 1 / 2⟩ 1000
        (fun _ => ⟨-1, none, true, some (some 0, some 0), none, none⟩) 0 0
        [⟨"KRW-BTC", some ⟨0, 100, 100, 100, 100, 1⟩, [], 0, -(10 ^ 9), 0, 1, 100, some 100,
          false, none, none⟩]
        []
        [⟨"KRW-BTC", some 50, some 1, false, some 60000⟩,
         ⟨"KRW-BTC", some 50, some 1, false, some 120000⟩] =
      ⟨0, [⟨"KRW-BTC", some ⟨0, 100, 100, 100, 100, 1⟩, [], 0, -(10 ^ 9), 0, 1, 100, some 100,
            false, none, none⟩],
       [], 0 + 1,
       some (equityOf 0
         [⟨"KRW-BTC", some ⟨0, 100, 100, 100, 100, 1⟩, [], 0, -(10 ^ 9), 0, 1, 100, some 100,
           false, none, none⟩] "KRW-BTC" 50)⟩ :=
  c2_halt_returns_immediately ⟨1, 3 / 10, 0, 0, 0, 1 / 2⟩ 1000
    (fun _ => ⟨-1, none, true, some (some 0, some 0), none, none⟩) 0 0
    [⟨"KRW-BTC", some ⟨0, 100, 100, 100, 100, 1⟩, [], 0, -(10 ^ 9), 0, 1, 100, some 100,
      false, none, none⟩]
    [] ⟨"KRW-BTC", some 50, some 1, false, some 60000⟩
    [⟨"KRW-BTC", some 50, some 1, false, some 120000⟩] "KRW-BTC" 60000 50 1
    ⟨"KRW-BTC", some ⟨0, 100, 100, 100, 100, 1⟩, [], 0, -(10 ^ 9), 0, 1, 100, some 100,
      false, none, none⟩
    rfl rfl (by norm_num) (by norm_num)
    (by norm_num [equityOf, lastClose, listSum])

end UA
